import Mathlib

/-!
Shallow embedding of the Smart-Notes note-versioning and reminder subsystem
(src/api/models.py, src/api/serializers.py, src/api/views.py).

Dates (`reminder_date`) are modelled as `Int` day numbers; timestamps
(`created_at`, `updated_at`, `auto_now_add`, `auto_now`) as ticks of a
logical clock held in the store.  Rows carry their primary keys explicitly;
auto-increment counters live in the store.
-/

/-- Row of the `Category` model (src/api/models.py): a per-user named
grouping; `owner` is the user id. -/
structure Category where
  id : Nat
  name : String
  owner : Nat
  deriving DecidableEq

/-- Row of the `Note` model (src/api/models.py).  `category` stores the id
of the related `Category` row (`NULL` is `none`). -/
structure Note where
  id : Nat
  title : String
  category : Option Nat
  tags : List String
  content : String
  summary : String
  reminder_date : Option Int
  created_at : Nat
  updated_at : Nat
  owner : Nat
  is_favorite : Bool
  deriving DecidableEq

/-- Row of the `NoteVersion` model (src/api/models.py); `note` is the id of
the parent `Note` row. -/
structure NoteVersion where
  id : Nat
  note : Nat
  title : String
  content : String
  tags : List String
  summary : String
  category : Option Nat
  reminder_date : Option Int
  is_favorite : Bool
  version_number : Nat
  created_at : Nat
  is_draft : Bool
  deriving DecidableEq

/-- The relational store: the three tables, their auto-increment counters,
and the logical clock that stands for the timestamp source. -/
structure DB where
  notes : List Note
  versions : List NoteVersion
  categories : List Category
  nextNoteId : Nat
  nextVersionId : Nat
  nextCategoryId : Nat
  clock : Nat
  deriving DecidableEq

/-- A store with no rows; primary keys start at 1, as in the source
database. -/
def emptyDB : DB :=
  { notes := [], versions := [], categories := []
    nextNoteId := 1, nextVersionId := 1, nextCategoryId := 1, clock := 0 }

/-- Ordering of `ReminderView.get`:
`.order_by(reminder_date, created_at)` — ascending reminder date, then
ascending creation time.  (Only applied to rows whose `reminder_date` is
non-null, so the `getD` default is never compared.) -/
def reminderOrder (a b : Note) : Prop :=
  a.reminder_date.getD 0 < b.reminder_date.getD 0 ∨
    (a.reminder_date.getD 0 = b.reminder_date.getD 0 ∧ a.created_at ≤ b.created_at)

instance : DecidableRel reminderOrder := fun a b => by
  unfold reminderOrder; exact inferInstance

instance : IsTotal Note reminderOrder :=
  ⟨by intro a b; unfold reminderOrder; omega⟩

instance : IsTrans Note reminderOrder :=
  ⟨by intro a b c; unfold reminderOrder; omega⟩

/-- The query of `ReminderView.get` (src/api/views.py):
`Note.objects.filter(owner=request.user, reminder_date__isnull=False)`
ordered by `(reminder_date, created_at)`. -/
def remindersOf (db : DB) (owner : Nat) : List Note :=
  List.insertionSort reminderOrder
    (db.notes.filter (fun n => n.owner == owner && n.reminder_date.isSome))

/-- The four lists of the `ReminderView.get` response body. -/
structure Buckets where
  todays : List Note
  tomorrows : List Note
  overdues : List Note
  scheduleds : List Note
  deriving DecidableEq

/-- `ReminderView.get` (src/api/views.py): buckets the reminder-bearing
notes of `owner` by comparing `reminder_date` with the server date `today`
(`reminder_date=today` / `=tomorrow` / `__lt=today` / `__gt=tomorrow`). -/
def classify (db : DB) (owner : Nat) (today : Int) : Buckets :=
  let notes_with_reminders := remindersOf db owner
  { todays := notes_with_reminders.filter (fun n => n.reminder_date == some today)
    tomorrows := notes_with_reminders.filter (fun n => n.reminder_date == some (today + 1))
    overdues := notes_with_reminders.filter
      (fun n => match n.reminder_date with | some d => decide (d < today) | none => false)
    scheduleds := notes_with_reminders.filter
      (fun n => match n.reminder_date with | some d => decide (today + 1 < d) | none => false) }

/-- Four filters whose predicates hold exactly once on every member of a
list split it into a permutation of that list. -/
theorem filter_partition_perm {α : Type} [DecidableEq α] (p q r s : α → Bool) (l : List α)
    (h : ∀ x ∈ l,
      (p x = true ∧ q x = false ∧ r x = false ∧ s x = false) ∨
      (p x = false ∧ q x = true ∧ r x = false ∧ s x = false) ∨
      (p x = false ∧ q x = false ∧ r x = true ∧ s x = false) ∨
      (p x = false ∧ q x = false ∧ r x = false ∧ s x = true)) :
    (l.filter p ++ l.filter q ++ l.filter r ++ l.filter s).Perm l := by
  rw [List.perm_iff_count]
  intro a
  simp only [List.count_append]
  have hzero : ∀ t : α → Bool, t a = false → (l.filter t).count a = 0 := by
    intro t ht
    refine List.count_eq_zero.mpr (fun hmem => ?_)
    have hta := (List.mem_filter.mp hmem).2
    rw [ht] at hta
    exact Bool.false_ne_true hta
  by_cases ha : a ∈ l
  · rcases h a ha with ⟨h1, h2, h3, h4⟩ | ⟨h1, h2, h3, h4⟩ | ⟨h1, h2, h3, h4⟩ | ⟨h1, h2, h3, h4⟩
    · rw [List.count_filter h1, hzero q h2, hzero r h3, hzero s h4]; omega
    · rw [hzero p h1, List.count_filter h2, hzero r h3, hzero s h4]; omega
    · rw [hzero p h1, hzero q h2, List.count_filter h3, hzero s h4]; omega
    · rw [hzero p h1, hzero q h2, hzero r h3, List.count_filter h4]; omega
  · have hz : l.count a = 0 := List.count_eq_zero.mpr ha
    have hp : ∀ t : α → Bool, (l.filter t).count a = 0 := by
      intro t
      refine List.count_eq_zero.mpr (fun hmem => ha ?_)
      exact List.mem_of_mem_filter hmem
    simp [hz, hp]

/-- C2: `ReminderView.get` places every note of the owner with a non-null
reminder date in exactly one bucket (today / tomorrow / overdue /
scheduled, by comparison with the reference date), no other note in any
bucket, and the four buckets together are a permutation of the owner
reminder-bearing notes. -/
theorem classify_partition (db : DB) (owner : Nat) (today : Int) :
    (∀ n, n ∈ (classify db owner today).todays ↔
        n ∈ remindersOf db owner ∧ n.reminder_date = some today) ∧
    (∀ n, n ∈ (classify db owner today).tomorrows ↔
        n ∈ remindersOf db owner ∧ n.reminder_date = some (today + 1)) ∧
    (∀ n, n ∈ (classify db owner today).overdues ↔
        n ∈ remindersOf db owner ∧ ∃ d, n.reminder_date = some d ∧ d < today) ∧
    (∀ n, n ∈ (classify db owner today).scheduleds ↔
        n ∈ remindersOf db owner ∧ ∃ d, n.reminder_date = some d ∧ today + 1 < d) ∧
    (∀ n, n ∈ remindersOf db owner ↔
        n ∈ db.notes ∧ n.owner = owner ∧ n.reminder_date ≠ none) ∧
    ((classify db owner today).todays ++ (classify db owner today).tomorrows ++
        (classify db owner today).overdues ++ (classify db owner today).scheduleds).Perm
      (remindersOf db owner) := by
  have hmem : ∀ n, n ∈ remindersOf db owner ↔
      n ∈ db.notes ∧ n.owner = owner ∧ n.reminder_date ≠ none := by
    intro n
    unfold remindersOf
    rw [(List.perm_insertionSort reminderOrder _).mem_iff]
    simp [List.mem_filter, Option.isSome_iff_ne_none, and_assoc]
  have hsome : ∀ n ∈ remindersOf db owner, ∃ d, n.reminder_date = some d := by
    intro n hn
    exact Option.ne_none_iff_exists'.mp ((hmem n).mp hn).2.2
  refine ⟨?_, ?_, ?_, ?_, hmem, ?_⟩
  · intro n
    simp only [classify, List.mem_filter]
    constructor
    · rintro ⟨h1, h2⟩
      exact ⟨h1, by simpa using h2⟩
    · rintro ⟨h1, h2⟩
      exact ⟨h1, by simp [h2]⟩
  · intro n
    simp only [classify, List.mem_filter]
    constructor
    · rintro ⟨h1, h2⟩
      exact ⟨h1, by simpa using h2⟩
    · rintro ⟨h1, h2⟩
      exact ⟨h1, by simp [h2]⟩
  · intro n
    simp only [classify, List.mem_filter]
    constructor
    · rintro ⟨h1, h2⟩
      refine ⟨h1, ?_⟩
      cases hd : n.reminder_date with
      | none => rw [hd] at h2; simp at h2
      | some d => rw [hd] at h2; simp at h2; exact ⟨d, rfl, h2⟩
    · rintro ⟨h1, d, hd, hlt⟩
      refine ⟨h1, ?_⟩
      rw [hd]; simpa
  · intro n
    simp only [classify, List.mem_filter]
    constructor
    · rintro ⟨h1, h2⟩
      refine ⟨h1, ?_⟩
      cases hd : n.reminder_date with
      | none => rw [hd] at h2; simp at h2
      | some d => rw [hd] at h2; simp at h2; exact ⟨d, rfl, h2⟩
    · rintro ⟨h1, d, hd, hlt⟩
      refine ⟨h1, ?_⟩
      rw [hd]; simpa
  · simp only [classify]
    apply filter_partition_perm
    intro x hx
    rcases hsome x hx with ⟨d, hd⟩
    have htri : d < today ∨ d = today ∨ d = today + 1 ∨ today + 1 < d := by omega
    rcases htri with h | h | h | h
    · refine Or.inr (Or.inr (Or.inl ?_))
      refine ⟨?_, ?_, ?_, ?_⟩ <;> simp [hd] <;> omega
    · refine Or.inl ?_
      refine ⟨?_, ?_, ?_, ?_⟩ <;> simp [hd] <;> omega
    · refine Or.inr (Or.inl ?_)
      refine ⟨?_, ?_, ?_, ?_⟩ <;> simp [hd] <;> omega
    · refine Or.inr (Or.inr (Or.inr ?_))
      refine ⟨?_, ?_, ?_, ?_⟩ <;> simp [hd] <;> omega

/-- Python `str.strip()`: drop whitespace from both ends, modelled on the
character list of the string. -/
def pyStrip (s : String) : String :=
  ⟨(((s.data.dropWhile Char.isWhitespace).reverse.dropWhile Char.isWhitespace).reverse)⟩

/-- Python `str.lower()`, modelled on the character list of the string. -/
def pyLower (s : String) : String :=
  ⟨s.data.map Char.toLower⟩

/-- Lookup `Note.objects.get(id=noteId, owner=user)` — the bundled
ownership filter used by every per-note view. -/
def getNote (db : DB) (user noteId : Nat) : Option Note :=
  db.notes.find? (fun n => n.id == noteId && n.owner == user)

/-- Outcome of the HTTP call made by
`NoteSerializer._get_openrouter_summary` (src/api/serializers.py).
`requestError` covers every `requests.RequestException` (connection
failure, timeout, non-2xx via `raise_for_status`), `formatError` the
`KeyError` / `IndexError` raised while digging into the response JSON,
`otherError` any remaining exception. -/
inductive SummarizerOutcome
  | ok (text : String)
  | missingKey
  | requestError (e : String)
  | formatError (e : String)
  | otherError (e : String)
  deriving DecidableEq

/-- Whether the outcome is one of the failure branches of the helper. -/
def SummarizerOutcome.isFailure : SummarizerOutcome → Bool
  | .ok _ => false
  | _ => true

/-- `NoteSerializer._get_openrouter_summary` (src/api/serializers.py):
maps each outcome of the external call to the returned string; every
failure yields a placeholder instead of raising. -/
def getOpenrouterSummary : SummarizerOutcome → String
  | .ok text =>
      if pyStrip text = "" then "Summary generation returned empty result." else pyStrip text
  | .missingKey => "Summary unavailable: OPENROUTER_API_KEY not set in .env"
  | .requestError e => "Summary unavailable: OpenRouter API error - " ++ e
  | .formatError e => "Summary unavailable: Invalid response format from OpenRouter - " ++ e
  | .otherError e => "Summary unavailable: " ++ e

/-- The JSON value sent for the `category` field: either an object of
string fields or some non-object value. -/
inductive CategoryPayload
  | obj (fields : List (String × String))
  | nonDict
  deriving DecidableEq

/-- `NoteSerializer.validate_category` (src/api/serializers.py): requires
an object containing `name`; normalizes the name (strip + lowercase) and
performs `Category.objects.get_or_create(name=..., owner=user)`.  The
get-or-create is a write executed during validation; the validated value
is the category row id. -/
def validate_category (db : DB) (user : Nat) : CategoryPayload → DB × Except String Nat
  | .nonDict => (db, .error "Invalid category format.")
  | .obj fields =>
    match fields.lookup "name" with
    | none => (db, .error "Invalid category format.")
    | some raw =>
      match db.categories.find?
          (fun c => c.name == pyLower (pyStrip raw) && c.owner == user) with
      | some c => (db, .ok c.id)
      | none =>
        ({ db with categories := db.categories ++ [⟨db.nextCategoryId, pyLower (pyStrip raw), user⟩]
                   nextCategoryId := db.nextCategoryId + 1 }, .ok db.nextCategoryId)

/-- `NoteSerializer.validate_reminder_date` (src/api/serializers.py): a
null value passes (`if value and ...`), a date before the server date
`today` is rejected. -/
def validate_reminder_date (today : Int) (value : Option Int) :
    Except String (Option Int) :=
  match value with
  | some d =>
      if d < today then .error "Reminder date cannot be in the past." else .ok (some d)
  | none => .ok none

/-- Body of a `CreateNoteView.post` request.  `title`, `category`, `tags`
and `content` are required serializer fields; `reminder_date` and
`is_favorite` fall back to null / false. -/
structure CreatePayload where
  title : String
  category : CategoryPayload
  tags : List String
  content : String
  reminder_date : Option Int
  is_favorite : Bool
  deriving DecidableEq

/-- Result of `CreateNoteView.post`: 201 with the note, or 400 with the
field-keyed error map. -/
inductive CreateResult
  | created (n : Note)
  | invalid
  deriving DecidableEq

/-- `CreateNoteView.post` + `NoteSerializer.create`
(src/api/views.py, src/api/serializers.py).  Validation runs both field
validators and collects the errors, so the get-or-create write of
`validate_category` persists even when the reminder date is rejected.  On
success the summary is computed from the summarizer outcome `s` when
`content` is non-empty, and the note row is inserted with
`owner = request.user`. -/
def createNotePost (db : DB) (user : Nat) (today : Int)
    (p : CreatePayload) (s : SummarizerOutcome) : DB × CreateResult :=
  match validate_category db user p.category, validate_reminder_date today p.reminder_date with
  | (db1, .ok cid), .ok rd =>
    let summary := if p.content = "" then "" else getOpenrouterSummary s
    let n : Note :=
      { id := db1.nextNoteId, title := p.title, category := some cid
        tags := p.tags, content := p.content, summary := summary
        reminder_date := rd, created_at := db1.clock, updated_at := db1.clock
        owner := user, is_favorite := p.is_favorite }
    ({ db1 with notes := db1.notes ++ [n], nextNoteId := db1.nextNoteId + 1
                clock := db1.clock + 1 }, .created n)
  | (db1, _), _ => (db1, .invalid)

/-- Body of a partial `NoteDetailView.put` request: only the provided
fields are validated and applied (`partial=True`). -/
structure UpdatePayload where
  title : Option String
  category : Option CategoryPayload
  tags : Option (List String)
  content : Option String
  summary : Option String
  reminder_date : Option (Option Int)
  is_favorite : Option Bool
  deriving DecidableEq

/-- Result of `NoteDetailView.put`: 200 with the note, 400, or 404. -/
inductive UpdateResult
  | ok (n : Note)
  | invalid
  | notFound
  deriving DecidableEq

/-- Per-field validation of the `category` field of a partial update: only
run when the field is present. -/
def validate_category_opt (db : DB) (user : Nat) :
    Option CategoryPayload → DB × Except String (Option Nat)
  | none => (db, .ok none)
  | some c =>
    match validate_category db user c with
    | (d, .ok cid) => (d, .ok (some cid))
    | (d, .error e) => (d, .error e)

/-- Per-field validation of the `reminder_date` field of a partial
update: only run when the field is present. -/
def validate_reminder_opt (today : Int) :
    Option (Option Int) → Except String (Option (Option Int))
  | none => .ok none
  | some rd => (validate_reminder_date today rd).map some

/-- The note row written by `NoteSerializer.update`: the summary is
recomputed from the summarizer outcome `s` exactly when the payload
carries a `content` value different from the stored one (the condition
`new_content is not None and new_content != instance.content`), otherwise
a client-sent `summary` (if any) is applied; the remaining present fields
are overlaid; `updated_at` is refreshed by `auto_now`. -/
def appliedNote (p : UpdatePayload) (s : SummarizerOutcome) (note : Note)
    (cid : Option Nat) (rd : Option (Option Int)) (clock : Nat) : Note :=
  { note with
    title := p.title.getD note.title
    category := match cid with | some c => some c | none => note.category
    tags := p.tags.getD note.tags
    content := p.content.getD note.content
    summary := (if (match p.content with
        | some c => c != note.content
        | none => false)
      then some (getOpenrouterSummary s) else p.summary).getD note.summary
    reminder_date := rd.getD note.reminder_date
    is_favorite := p.is_favorite.getD note.is_favorite
    updated_at := clock }

/-- `NoteDetailView.put` + `NoteSerializer.update`
(src/api/views.py, src/api/serializers.py).  The note is fetched by
`(pk, owner)`; the present fields are validated, the row described by
`appliedNote` is saved.  No version row is written on this path. -/
def notePut (db : DB) (user noteId : Nat) (today : Int)
    (p : UpdatePayload) (s : SummarizerOutcome) : DB × UpdateResult :=
  match getNote db user noteId with
  | none => (db, .notFound)
  | some note =>
    match validate_category_opt db user p.category, validate_reminder_opt today p.reminder_date with
    | (db1, .ok cid), .ok rd =>
      let note' : Note := appliedNote p s note cid rd db1.clock
      ({ db1 with notes := db1.notes.map (fun m => if m.id == note.id then note' else m)
                  clock := db1.clock + 1 }, .ok note')
    | (db1, _), _ => (db1, .invalid)

/-- Body of a `DraftView.post` request: raw `request.data`, read with
`data.get(field, fallback)` — no serializer validation.  The inner
`Option` of `category_id` / `reminder_date` models an explicit JSON
null. -/
structure DraftPayload where
  title : Option String
  content : Option String
  tags : Option (List String)
  summary : Option String
  category_id : Option (Option Nat)
  reminder_date : Option (Option Int)
  is_favorite : Option Bool
  deriving DecidableEq

/-- Result of `DraftView.post`: 201 with the version, 400 when the
note id is falsy (`if note_id:` — integer 0 from the URL), or 404. -/
inductive DraftResult
  | created (v : NoteVersion)
  | badRequest
  | notFound
  deriving DecidableEq

/-- `DraftView.post` (src/api/views.py): fetches the note by
`(id, owner)`, computes `next_version = note.versions.count() + 1`, and
inserts a `NoteVersion` with `is_draft=True` whose fields are the payload
overlaid on the current note row.  The note row itself is not written. -/
def draftPost (db : DB) (user noteId : Nat) (data : DraftPayload) :
    DB × DraftResult :=
  if noteId = 0 then (db, .badRequest)
  else
    match getNote db user noteId with
    | none => (db, .notFound)
    | some note =>
      let next_version := (db.versions.filter (fun v => v.note == note.id)).length + 1
      let version : NoteVersion :=
        { id := db.nextVersionId
          note := note.id
          title := data.title.getD note.title
          content := data.content.getD note.content
          tags := data.tags.getD note.tags
          summary := data.summary.getD note.summary
          category := data.category_id.getD note.category
          reminder_date := data.reminder_date.getD note.reminder_date
          is_favorite := data.is_favorite.getD note.is_favorite
          version_number := next_version
          created_at := db.clock
          is_draft := true }
      ({ db with versions := db.versions ++ [version]
                 nextVersionId := db.nextVersionId + 1
                 clock := db.clock + 1 }, .created version)

/-- Ordering of `VersionHistoryView.get`: `.order_by(-created_at)` —
newest first.  Ties carry no further key; the stable sort below keeps
them in underlying row order, as the SQL result does. -/
def versionOrder (a b : NoteVersion) : Prop := b.created_at ≤ a.created_at

instance : DecidableRel versionOrder := fun a b =>
  inferInstanceAs (Decidable (b.created_at ≤ a.created_at))

instance : IsTotal NoteVersion versionOrder :=
  ⟨fun a b => Nat.le_total b.created_at a.created_at⟩

instance : IsTrans NoteVersion versionOrder :=
  ⟨fun _ _ _ h1 h2 => Nat.le_trans h2 h1⟩

/-- Result of `VersionHistoryView.get`: 200 with the list, or 404. -/
inductive VersionsResult
  | ok (vs : List NoteVersion)
  | notFound
  deriving DecidableEq

/-- `VersionHistoryView.get` (src/api/views.py):
`note.versions.all().order_by(-created_at)[:20]`, the last 20 versions. -/
def versionHistoryGet (db : DB) (user noteId : Nat) : DB × VersionsResult :=
  match getNote db user noteId with
  | none => (db, .notFound)
  | some note =>
    (db, .ok ((List.insertionSort versionOrder
      (db.versions.filter (fun v => v.note == note.id))).take 20))

/-- Result of `VersionHistoryView.post`: 200, or 404 with the single
message `Version not found` for every failing lookup. -/
inductive RestoreResult
  | ok
  | notFound
  deriving DecidableEq

/-- `VersionHistoryView.post` (src/api/views.py), the restore path.  The
single query
`NoteVersion.objects.get(id=version_id, note_id=note_id, note__owner=request.user)`
is split into the note lookup by `(id, owner)` and the version lookup by
`(id, note_id)`; every mismatch lands in the same `DoesNotExist` branch.
On success all seven versionable fields of the version are copied onto
the note and the row is saved; then a fresh `NoteVersion` is inserted
passing only `note`, `title`, `content`, `version_number` and
`is_draft=False` (the source has a literal placeholder comment where the
remaining field copies would be), so the remaining columns take the model
defaults: `tags=[]`, `summary=""`, `category=None`, `reminder_date=None`,
`is_favorite=False`. -/
def versionHistoryPost (db : DB) (user noteId versionId : Nat) :
    DB × RestoreResult :=
  match getNote db user noteId,
        db.versions.find? (fun v => v.id == versionId && v.note == noteId) with
  | some note, some version =>
    let note' : Note :=
      { note with
        title := version.title
        content := version.content
        tags := version.tags
        summary := version.summary
        category := version.category
        reminder_date := version.reminder_date
        is_favorite := version.is_favorite
        updated_at := db.clock }
    let db1 : DB :=
      { db with notes := db.notes.map (fun m => if m.id == note.id then note' else m)
                clock := db.clock + 1 }
    let w : NoteVersion :=
      { id := db1.nextVersionId
        note := note'.id
        title := note'.title
        content := note'.content
        tags := []
        summary := ""
        category := none
        reminder_date := none
        is_favorite := false
        version_number := (db1.versions.filter (fun v => v.note == note'.id)).length + 1
        created_at := db1.clock
        is_draft := false }
    ({ db1 with versions := db1.versions ++ [w]
                nextVersionId := db1.nextVersionId + 1
                clock := db1.clock + 1 }, .ok)
  | _, _ => (db, .notFound)

/-- Result of `NoteDetailView.delete`: 204 or 404. -/
inductive DeleteResult
  | ok
  | notFound
  deriving DecidableEq

/-- `NoteDetailView.delete` (src/api/views.py): fetches by `(pk, owner)`
and deletes the row; the `CASCADE` on `NoteVersion.note` removes the
version rows of the note. -/
def noteDelete (db : DB) (user noteId : Nat) : DB × DeleteResult :=
  match getNote db user noteId with
  | none => (db, .notFound)
  | some note =>
    ({ db with notes := db.notes.filter (fun m => m.id != note.id)
               versions := db.versions.filter (fun v => v.note != note.id) }, .ok)

/-- One authenticated request against the subsystem. -/
inductive Op
  | create (user : Nat) (today : Int) (p : CreatePayload) (s : SummarizerOutcome)
  | update (user noteId : Nat) (today : Int) (p : UpdatePayload) (s : SummarizerOutcome)
  | draft (user noteId : Nat) (data : DraftPayload)
  | restore (user noteId versionId : Nat)
  | history (user noteId : Nat)
  | delete (user noteId : Nat)
  deriving DecidableEq

/-- State transition of one request (response discarded). -/
def step (db : DB) : Op → DB
  | .create u t p s => (createNotePost db u t p s).1
  | .update u nid t p s => (notePut db u nid t p s).1
  | .draft u nid d => (draftPost db u nid d).1
  | .restore u nid vid => (versionHistoryPost db u nid vid).1
  | .history u nid => (versionHistoryGet db u nid).1
  | .delete u nid => (noteDelete db u nid).1

/-- Run a sequence of requests. -/
def runOps (db : DB) (ops : List Op) : DB := ops.foldl step db

/-- Concrete store for the restore analysis: user 7 owns note 1, which
has one version whose fields all differ from the model defaults. -/
def restoreDB : DB :=
  { notes := [{ id := 1, title := "t0", category := none, tags := ["old"]
                content := "c0", summary := "s0", reminder_date := none
                created_at := 0, updated_at := 0, owner := 7, is_favorite := false }]
    versions := [{ id := 1, note := 1, title := "tv", content := "cv"
                   tags := ["a"], summary := "sv", category := some 5
                   reminder_date := some 42, is_favorite := true
                   version_number := 1, created_at := 0, is_draft := false }]
    categories := []
    nextNoteId := 2, nextVersionId := 2, nextCategoryId := 1, clock := 1 }

/-- C1: restoring version 1 of note 1 in `restoreDB` copies every field of
the version onto the live note and appends version number 2, but the
appended row keeps only the title and the content: its tags, summary,
category, reminder date and favorite flag are the model defaults rather
than the fields of the restored version. -/
theorem restore_version_fields_dropped :
    (versionHistoryPost restoreDB 7 1 1).2 = RestoreResult.ok ∧
    (versionHistoryPost restoreDB 7 1 1).1.notes.map
        (fun n => (n.title, n.content, n.tags, n.summary, n.category, n.reminder_date,
          n.is_favorite))
      = [("tv", "cv", ["a"], "sv", some 5, some 42, true)] ∧
    (versionHistoryPost restoreDB 7 1 1).1.versions.map
        (fun v => (v.version_number, v.title, v.content, v.tags, v.summary, v.category,
          v.reminder_date, v.is_favorite))
      = [(1, "tv", "cv", ["a"], "sv", some 5, some 42, true),
         (2, "tv", "cv", [], "", none, none, false)] := by
  exact ⟨rfl, rfl, rfl⟩

/-- C9 counterexample: a create request with a well-formed new category
and a past reminder date fails validation, yet the category row written
by `validate_category` during validation persists in the store. -/
theorem failed_validation_creates_category :
    (createNotePost emptyDB 7 100
        { title := "t", category := .obj [("name", "work")], tags := []
          content := "c", reminder_date := some 99, is_favorite := false }
        SummarizerOutcome.missingKey).2 = CreateResult.invalid ∧
    (createNotePost emptyDB 7 100
        { title := "t", category := .obj [("name", "work")], tags := []
          content := "c", reminder_date := some 99, is_favorite := false }
        SummarizerOutcome.missingKey).1.categories
      = [{ id := 1, name := "work", owner := 7 }] := by
  decide

/-- Request sequence for the version-count analysis: create note 1, then
apply one content-changing update to it. -/
def c4Ops : List Op :=
  [ .create 7 0
      { title := "t", category := .obj [("name", "c")], tags := []
        content := "a", reminder_date := none, is_favorite := false }
      (.ok "s")
  , .update 7 1 0
      { title := none, category := none, tags := none, content := some "b"
        summary := none, reminder_date := none, is_favorite := none }
      (.ok "s2") ]

/-- C4 counterexample: after one successful content-changing update the
note stores the new content, yet no version row exists — creation and
updates write no versions, so the version count is 0, not 1. -/
theorem update_records_no_version :
    ((runOps emptyDB c4Ops).notes.map Note.content = ["b"]) ∧
    (runOps emptyDB c4Ops).versions = [] ∧
    (runOps emptyDB c4Ops).versions.length ≠ 1 := by
  decide

/-- C3 counterexample: note id 0 can never resolve to a note, but the
draft endpoint rejects it with 400 (`if note_id:` treats 0 as missing)
before the ownership lookup, not with 404. -/
theorem draft_zero_id_bad_request :
    draftPost emptyDB 7 0
      { title := none, content := none, tags := none, summary := none
        category_id := none, reminder_date := none, is_favorite := none }
      = (emptyDB, DraftResult.badRequest) ∧
    DraftResult.badRequest ≠ DraftResult.notFound := by
  decide

/-- Display ordering asserted by the spec for the version history:
newest first by `created_at`, ties broken by `version_number`
descending.  Stated from the words of the spec, for comparison with the
implementation, which orders by `created_at` alone. -/
def specDisplayOrder (a b : NoteVersion) : Prop :=
  b.created_at < a.created_at ∨
    (b.created_at = a.created_at ∧ b.version_number ≤ a.version_number)

instance : DecidableRel specDisplayOrder := fun a b => by
  unfold specDisplayOrder; exact inferInstance

/-- First-inserted version of note 1, `version_number` 1, `created_at`
5. -/
def tieV1 : NoteVersion :=
  { id := 1, note := 1, title := "a", content := "ca"
    tags := [], summary := "", category := none
    reminder_date := none, is_favorite := false
    version_number := 1, created_at := 5, is_draft := false }

/-- Second-inserted version of note 1, `version_number` 2, with the same
`created_at` as `tieV1`. -/
def tieV2 : NoteVersion :=
  { id := 2, note := 1, title := "b", content := "cb"
    tags := [], summary := "", category := none
    reminder_date := none, is_favorite := false
    version_number := 2, created_at := 5, is_draft := false }

/-- Store with two versions of note 1 sharing one `created_at` value. -/
def tieDB : DB :=
  { notes := [{ id := 1, title := "t", category := none, tags := []
                content := "c", summary := "", reminder_date := none
                created_at := 0, updated_at := 0, owner := 7, is_favorite := false }]
    versions := [tieV1, tieV2]
    categories := []
    nextNoteId := 2, nextVersionId := 3, nextCategoryId := 1, clock := 6 }

/-- C10 counterexample: with two versions sharing `created_at`, the query
(ordered by `created_at` alone, ties left in row order) returns version
numbers 1 then 2 — not the version-number-descending tie order the claim
asserts. -/
theorem list_versions_tie_order :
    (versionHistoryGet tieDB 7 1).2 = VersionsResult.ok [tieV1, tieV2] ∧
    [tieV1, tieV2].map NoteVersion.version_number = [1, 2] ∧
    ¬ List.Pairwise specDisplayOrder [tieV1, tieV2] := by
  refine ⟨?_, ?_, ?_⟩
  · decide
  · decide
  · decide

/-- A successful `(id, owner)` lookup returns a stored note with exactly
that id and owner. -/
theorem getNote_mem (db : DB) (user noteId : Nat) (n : Note)
    (h : getNote db user noteId = some n) :
    n ∈ db.notes ∧ n.id = noteId ∧ n.owner = user := by
  unfold getNote at h
  have hm := List.mem_of_find?_eq_some h
  have hp := List.find?_some h
  simp only [Bool.and_eq_true, beq_iff_eq] at hp
  exact ⟨hm, hp.1, hp.2⟩

/-- C3 (amended): for a nonzero note id, a draft save never touches the
note and category tables; when the note resolves it appends exactly one
version row flagged as draft whose fields are the payload overlaid on the
current note row, and when it does not resolve it returns 404 changing
nothing. -/
theorem draft_frame_and_overlay (db : DB) (user noteId : Nat) (data : DraftPayload)
    (hnz : noteId ≠ 0) :
    (∀ note, getNote db user noteId = some note →
      (draftPost db user noteId data).1.notes = db.notes ∧
      (draftPost db user noteId data).1.categories = db.categories ∧
      ∃ v, (draftPost db user noteId data).2 = .created v ∧
        (draftPost db user noteId data).1.versions = db.versions ++ [v] ∧
        v.is_draft = true ∧
        v.note = note.id ∧
        v.title = data.title.getD note.title ∧
        v.content = data.content.getD note.content ∧
        v.tags = data.tags.getD note.tags ∧
        v.summary = data.summary.getD note.summary ∧
        v.category = data.category_id.getD note.category ∧
        v.reminder_date = data.reminder_date.getD note.reminder_date ∧
        v.is_favorite = data.is_favorite.getD note.is_favorite) ∧
    (getNote db user noteId = none →
      draftPost db user noteId data = (db, DraftResult.notFound)) := by
  constructor
  · intro note h
    unfold draftPost
    rw [if_neg hnz, h]
    exact ⟨rfl, rfl, _, rfl, rfl, rfl, rfl, rfl, rfl, rfl, rfl, rfl, rfl, rfl⟩
  · intro h
    unfold draftPost
    rw [if_neg hnz, h]

/-- The note row of `restoreDB`, for instantiating the draft theorem. -/
def restoreNote : Note :=
  { id := 1, title := "t0", category := none, tags := ["old"]
    content := "c0", summary := "s0", reminder_date := none
    created_at := 0, updated_at := 0, owner := 7, is_favorite := false }

/-- A concrete partial draft payload. -/
def draftDataW : DraftPayload :=
  { title := some "d", content := none, tags := none, summary := none
    category_id := none, reminder_date := some (some 9), is_favorite := none }

/-- Witness for the draft theorem at a concrete store and payload. -/
theorem draft_frame_and_overlay_witness :
    (draftPost restoreDB 7 1 draftDataW).1.notes = restoreDB.notes ∧
    (draftPost restoreDB 7 1 draftDataW).1.categories = restoreDB.categories ∧
    ∃ v, (draftPost restoreDB 7 1 draftDataW).2 = .created v ∧
      (draftPost restoreDB 7 1 draftDataW).1.versions = restoreDB.versions ++ [v] ∧
      v.is_draft = true ∧
      v.note = restoreNote.id ∧
      v.title = draftDataW.title.getD restoreNote.title ∧
      v.content = draftDataW.content.getD restoreNote.content ∧
      v.tags = draftDataW.tags.getD restoreNote.tags ∧
      v.summary = draftDataW.summary.getD restoreNote.summary ∧
      v.category = draftDataW.category_id.getD restoreNote.category ∧
      v.reminder_date = draftDataW.reminder_date.getD restoreNote.reminder_date ∧
      v.is_favorite = draftDataW.is_favorite.getD restoreNote.is_favorite :=
  (draft_frame_and_overlay restoreDB 7 1 draftDataW (by decide)).1 restoreNote rfl

/-- C7: when no stored version carries the requested id for the addressed
note of the requesting user — the id is absent, or the version hangs off
another note, or the note belongs to another user — the restore returns
the one fixed 404 response and the store is unchanged, making the cases
indistinguishable to the caller. -/
theorem restore_missing_version_not_found (db : DB) (user noteId versionId : Nat)
    (h : ∀ v ∈ db.versions, ¬(v.id = versionId ∧ v.note = noteId ∧
          ∃ n ∈ db.notes, n.id = noteId ∧ n.owner = user)) :
    versionHistoryPost db user noteId versionId = (db, RestoreResult.notFound) := by
  cases hg : getNote db user noteId with
  | none =>
    cases hv : db.versions.find? (fun v => v.id == versionId && v.note == noteId) with
    | none => simp [versionHistoryPost, hg, hv]
    | some v => simp [versionHistoryPost, hg, hv]
  | some n =>
    have hn := getNote_mem db user noteId n hg
    have hv : db.versions.find? (fun v => v.id == versionId && v.note == noteId) = none := by
      rw [List.find?_eq_none]
      intro v hvmem hpred
      simp only [Bool.and_eq_true, beq_iff_eq] at hpred
      exact h v hvmem ⟨hpred.1, hpred.2, n, hn.1, hn.2.1, hn.2.2⟩
    simp [versionHistoryPost, hg, hv]

/-- Witness for the restore 404 theorem on the empty store. -/
theorem restore_missing_version_not_found_witness :
    versionHistoryPost emptyDB 3 1 1 = (emptyDB, RestoreResult.notFound) :=
  restore_missing_version_not_found emptyDB 3 1 1 (by decide)

/-- Every failure branch of the summarizer helper yields a string of the
form `Summary unavailable: ...`. -/
theorem getOpenrouterSummary_placeholder (s : SummarizerOutcome)
    (hs : s.isFailure = true) :
    ∃ reason, getOpenrouterSummary s = "Summary unavailable: " ++ reason := by
  cases s with
  | ok text => simp [SummarizerOutcome.isFailure] at hs
  | missingKey => exact ⟨"OPENROUTER_API_KEY not set in .env", by decide⟩
  | requestError e =>
    refine ⟨"OpenRouter API error - " ++ e, ?_⟩
    have h2 : "Summary unavailable: OpenRouter API error - " =
        "Summary unavailable: " ++ "OpenRouter API error - " := by decide
    simp only [getOpenrouterSummary, h2, String.append_assoc]
  | formatError e =>
    refine ⟨"Invalid response format from OpenRouter - " ++ e, ?_⟩
    have h2 : "Summary unavailable: Invalid response format from OpenRouter - " =
        "Summary unavailable: " ++ "Invalid response format from OpenRouter - " := by decide
    simp only [getOpenrouterSummary, h2, String.append_assoc]
  | otherError e => exact ⟨e, rfl⟩

/-- A concrete create payload whose category resolves and whose reminder
date is valid. -/
def c5Payload : CreatePayload :=
  { title := "t", category := .obj [("name", "x")], tags := ["k"]
    content := "body", reminder_date := none, is_favorite := false }

/-- A concrete content-changing update payload. -/
def c5Update : UpdatePayload :=
  { title := none, category := none, tags := none, content := some "newbody"
    summary := none, reminder_date := none, is_favorite := none }

/-- Reduction of `notePut` when the note resolves and both validators
pass. -/
theorem notePut_some (db : DB) (user noteId : Nat) (today : Int) (p : UpdatePayload)
    (s : SummarizerOutcome) (note : Note) (db1 : DB) (cid : Option Nat)
    (rd : Option (Option Int))
    (h : getNote db user noteId = some note)
    (hvc : validate_category_opt db user p.category = (db1, .ok cid))
    (hvr : validate_reminder_opt today p.reminder_date = .ok rd) :
    notePut db user noteId today p s =
      ({ db1 with
          notes := db1.notes.map
            (fun m => if m.id == note.id then appliedNote p s note cid rd db1.clock else m)
          clock := db1.clock + 1 }, .ok (appliedNote p s note cid rd db1.clock)) := by
  unfold notePut
  rw [h, hvc, hvr]

/-- Reduction of `notePut` when the note resolves and the category field
fails validation. -/
theorem notePut_invalid_cat (db : DB) (user noteId : Nat) (today : Int)
    (p : UpdatePayload) (s : SummarizerOutcome) (note : Note) (db1 : DB) (e : String)
    (h : getNote db user noteId = some note)
    (hvc : validate_category_opt db user p.category = (db1, .error e)) :
    notePut db user noteId today p s = (db1, .invalid) := by
  unfold notePut
  rw [h, hvc]

/-- Reduction of `notePut` when the note resolves, the category field
passes, and the reminder field fails validation. -/
theorem notePut_invalid_rem (db : DB) (user noteId : Nat) (today : Int)
    (p : UpdatePayload) (s : SummarizerOutcome) (note : Note) (db1 : DB)
    (cid : Option Nat) (e : String)
    (h : getNote db user noteId = some note)
    (hvc : validate_category_opt db user p.category = (db1, .ok cid))
    (hvr : validate_reminder_opt today p.reminder_date = .error e) :
    notePut db user noteId today p s = (db1, .invalid) := by
  unfold notePut
  rw [h, hvc, hvr]

/-- With changed content, the saved row carries the freshly computed
summary. -/
theorem appliedNote_summary_recomputed (p : UpdatePayload) (s : SummarizerOutcome)
    (note : Note) (cid : Option Nat) (rd : Option (Option Int)) (k : Nat)
    (c : String) (hc : p.content = some c) (hne : c ≠ note.content) :
    (appliedNote p s note cid rd k).summary = getOpenrouterSummary s := by
  unfold appliedNote
  rw [hc]
  simp [hne]

/-- With absent or unchanged content and no client summary, the saved
row keeps the stored summary. -/
theorem appliedNote_summary_kept (p : UpdatePayload) (s : SummarizerOutcome)
    (note : Note) (cid : Option Nat) (rd : Option (Option Int)) (k : Nat)
    (hcont : p.content = none ∨ p.content = some note.content)
    (hsum : p.summary = none) :
    (appliedNote p s note cid rd k).summary = note.summary := by
  unfold appliedNote
  rcases hcont with h1 | h1 <;> simp [h1, hsum]

/-- With absent or unchanged content, the saved row does not depend on
the summarizer outcome. -/
theorem appliedNote_summarizer_irrelevant (p : UpdatePayload) (s s2 : SummarizerOutcome)
    (note : Note) (cid : Option Nat) (rd : Option (Option Int)) (k : Nat)
    (hcont : p.content = none ∨ p.content = some note.content) :
    appliedNote p s note cid rd k = appliedNote p s2 note cid rd k := by
  unfold appliedNote
  rcases hcont with h1 | h1 <;> simp [h1]

/-- C6: an update recomputes the summary exactly when the payload carries
a content value different from the stored one; otherwise the whole
request result is independent of the summarizer (it is never invoked),
and if the payload also carries no summary field the stored summary is
kept verbatim. -/
theorem update_summary_recompute_policy (db : DB) (user noteId : Nat) (today : Int)
    (p : UpdatePayload) (s s2 : SummarizerOutcome) (note : Note)
    (h : getNote db user noteId = some note) :
    (∀ c, p.content = some c → c ≠ note.content →
      ∀ n, (notePut db user noteId today p s).2 = .ok n →
        n.summary = getOpenrouterSummary s) ∧
    ((p.content = none ∨ p.content = some note.content) →
      notePut db user noteId today p s = notePut db user noteId today p s2 ∧
      (p.summary = none →
        ∀ n, (notePut db user noteId today p s).2 = .ok n → n.summary = note.summary)) := by
  rcases hvc : validate_category_opt db user p.category with ⟨db1, catRes⟩
  constructor
  · rintro c hc hne n hok
    cases catRes with
    | error e =>
      rw [notePut_invalid_cat db user noteId today p s note db1 e h hvc] at hok
      exact absurd hok (by simp)
    | ok cid =>
      cases hvr : validate_reminder_opt today p.reminder_date with
      | error e2 =>
        rw [notePut_invalid_rem db user noteId today p s note db1 cid e2 h hvc hvr] at hok
        exact absurd hok (by simp)
      | ok rd =>
        rw [notePut_some db user noteId today p s note db1 cid rd h hvc hvr] at hok
        simp only [UpdateResult.ok.injEq] at hok
        rw [← hok]
        exact appliedNote_summary_recomputed p s note cid rd db1.clock c hc hne
  · intro hcont
    have hsame : notePut db user noteId today p s = notePut db user noteId today p s2 := by
      cases catRes with
      | error e =>
        rw [notePut_invalid_cat db user noteId today p s note db1 e h hvc,
            notePut_invalid_cat db user noteId today p s2 note db1 e h hvc]
      | ok cid =>
        cases hvr : validate_reminder_opt today p.reminder_date with
        | error e2 =>
          rw [notePut_invalid_rem db user noteId today p s note db1 cid e2 h hvc hvr,
              notePut_invalid_rem db user noteId today p s2 note db1 cid e2 h hvc hvr]
        | ok rd =>
          rw [notePut_some db user noteId today p s note db1 cid rd h hvc hvr,
              notePut_some db user noteId today p s2 note db1 cid rd h hvc hvr,
              appliedNote_summarizer_irrelevant p s s2 note cid rd db1.clock hcont]
    refine ⟨hsame, ?_⟩
    intro hsum n hok
    cases catRes with
    | error e =>
      rw [notePut_invalid_cat db user noteId today p s note db1 e h hvc] at hok
      exact absurd hok (by simp)
    | ok cid =>
      cases hvr : validate_reminder_opt today p.reminder_date with
      | error e2 =>
        rw [notePut_invalid_rem db user noteId today p s note db1 cid e2 h hvc hvr] at hok
        exact absurd hok (by simp)
      | ok rd =>
        rw [notePut_some db user noteId today p s note db1 cid rd h hvc hvr] at hok
        simp only [UpdateResult.ok.injEq] at hok
        rw [← hok]
        exact appliedNote_summary_kept p s note cid rd db1.clock hcont hsum

/-- Frame of `validate_category`: it never touches the note or version
tables, and at most appends one category row (the get-or-create). -/
theorem validate_category_frame (db : DB) (user : Nat) (c : CategoryPayload) :
    (validate_category db user c).1.notes = db.notes ∧
    (validate_category db user c).1.versions = db.versions ∧
    ((validate_category db user c).1.categories = db.categories ∨
      ∃ cat, (validate_category db user c).1.categories = db.categories ++ [cat]) := by
  cases c with
  | nonDict => exact ⟨rfl, rfl, Or.inl rfl⟩
  | obj fields =>
    simp only [validate_category]
    split
    · exact ⟨rfl, rfl, Or.inl rfl⟩
    · split
      · exact ⟨rfl, rfl, Or.inl rfl⟩
      · exact ⟨rfl, rfl, Or.inr ⟨_, rfl⟩⟩

/-- Frame of the optional category validation of a partial update. -/
theorem validate_category_opt_frame (db : DB) (user : Nat) (c : Option CategoryPayload) :
    (validate_category_opt db user c).1.notes = db.notes ∧
    (validate_category_opt db user c).1.versions = db.versions ∧
    ((validate_category_opt db user c).1.categories = db.categories ∨
      ∃ cat, (validate_category_opt db user c).1.categories = db.categories ++ [cat]) := by
  cases c with
  | none => exact ⟨rfl, rfl, Or.inl rfl⟩
  | some cp =>
    have hfr := validate_category_frame db user cp
    rcases hvc : validate_category db user cp with ⟨d, r⟩
    rw [hvc] at hfr
    cases r with
    | ok cid => simpa [validate_category_opt, hvc] using hfr
    | error e => simpa [validate_category_opt, hvc] using hfr

/-- C5: when the summarizer fails (missing credential, request error of
any kind including timeout, malformed response, or any other exception),
a create with non-empty content and an update carrying changed non-empty
content — the two paths that invoke the summarizer — both still succeed:
the note row is written, its summary is exactly the placeholder string
returned by the helper, and that string always reads
`Summary unavailable: ...`. -/
theorem summarizer_failure_placeholder (db : DB) (user noteId : Nat) (today : Int)
    (pc : CreatePayload) (pu : UpdatePayload) (s : SummarizerOutcome)
    (hs : s.isFailure = true) :
    (pc.content ≠ "" →
      (∃ db1 cid, validate_category db user pc.category = (db1, .ok cid)) →
      (∃ rd, validate_reminder_date today pc.reminder_date = .ok rd) →
      ∃ n, (createNotePost db user today pc s).2 = .created n ∧
        n.summary = getOpenrouterSummary s ∧
        n ∈ (createNotePost db user today pc s).1.notes ∧
        ∃ reason, getOpenrouterSummary s = "Summary unavailable: " ++ reason) ∧
    (∀ note c, getNote db user noteId = some note →
      pu.content = some c → c ≠ "" → c ≠ note.content →
      (∃ db1 cid, validate_category_opt db user pu.category = (db1, .ok cid)) →
      (∃ rd, validate_reminder_opt today pu.reminder_date = .ok rd) →
      ∃ n, (notePut db user noteId today pu s).2 = .ok n ∧
        n.summary = getOpenrouterSummary s ∧
        n ∈ (notePut db user noteId today pu s).1.notes ∧
        ∃ reason, getOpenrouterSummary s = "Summary unavailable: " ++ reason) := by
  have hplaceholder := getOpenrouterSummary_placeholder s hs
  constructor
  · rintro hc ⟨db1, cid, hcat⟩ ⟨rd, hrem⟩
    unfold createNotePost
    rw [hcat, hrem]
    refine ⟨_, rfl, ?_, ?_, hplaceholder⟩
    · simp [if_neg hc]
    · simp
  · rintro note c hg hc hcne hcdiff ⟨db1, cid, hvc⟩ ⟨rd, hvr⟩
    rw [notePut_some db user noteId today pu s note db1 cid rd hg hvc hvr]
    refine ⟨appliedNote pu s note cid rd db1.clock, rfl,
      appliedNote_summary_recomputed pu s note cid rd db1.clock c hc hcdiff, ?_, hplaceholder⟩
    have hnotes : db1.notes = db.notes := by
      have hfr := (validate_category_opt_frame db user pu.category).1
      rw [hvc] at hfr
      exact hfr
    have hmemnote : note ∈ db1.notes := by
      rw [hnotes]
      exact (getNote_mem db user noteId note hg).1
    have hmap := List.mem_map_of_mem
      (fun m => if m.id == note.id then appliedNote pu s note cid rd db1.clock else m) hmemnote
    simpa using hmap

/-- Witness for the summarizer-failure theorem: missing API key, with a
concrete create and a concrete content-changing update on `restoreDB`. -/
theorem summarizer_failure_placeholder_witness :
    (∃ n, (createNotePost restoreDB 7 0 c5Payload .missingKey).2 = .created n ∧
        n.summary = getOpenrouterSummary .missingKey ∧
        n ∈ (createNotePost restoreDB 7 0 c5Payload .missingKey).1.notes ∧
        ∃ reason, getOpenrouterSummary .missingKey = "Summary unavailable: " ++ reason) ∧
    (∃ n, (notePut restoreDB 7 1 0 c5Update .missingKey).2 = .ok n ∧
        n.summary = getOpenrouterSummary .missingKey ∧
        n ∈ (notePut restoreDB 7 1 0 c5Update .missingKey).1.notes ∧
        ∃ reason, getOpenrouterSummary .missingKey = "Summary unavailable: " ++ reason) := by
  have h := summarizer_failure_placeholder restoreDB 7 1 0 c5Payload c5Update
    .missingKey (by decide)
  exact ⟨h.1 (by decide) ⟨_, _, rfl⟩ ⟨_, rfl⟩,
    h.2 restoreNote "newbody" rfl rfl (by decide) (by decide) ⟨_, _, rfl⟩ ⟨_, rfl⟩⟩

/-- C9 (amended): a create or a partial update that fails validation
writes no note and no version; the only possible state change is the
single category row that a well-formed category payload may have created
during validation (the reminder check collects its error after the
category get-or-create already ran). -/
theorem validation_failure_frame (db : DB) (user noteId : Nat) (today : Int)
    (pc : CreatePayload) (pu : UpdatePayload) (s : SummarizerOutcome) :
    ((createNotePost db user today pc s).2 = .invalid →
      (createNotePost db user today pc s).1.notes = db.notes ∧
      (createNotePost db user today pc s).1.versions = db.versions ∧
      ((createNotePost db user today pc s).1.categories = db.categories ∨
        ∃ cat, (createNotePost db user today pc s).1.categories = db.categories ++ [cat])) ∧
    ((notePut db user noteId today pu s).2 = .invalid →
      (notePut db user noteId today pu s).1.notes = db.notes ∧
      (notePut db user noteId today pu s).1.versions = db.versions ∧
      ((notePut db user noteId today pu s).1.categories = db.categories ∨
        ∃ cat, (notePut db user noteId today pu s).1.categories = db.categories ++ [cat])) := by
  constructor
  · intro hinv
    have hfr := validate_category_frame db user pc.category
    rcases hvc : validate_category db user pc.category with ⟨db1, catRes⟩
    rw [hvc] at hfr
    cases catRes with
    | error e =>
      have hred : createNotePost db user today pc s = (db1, .invalid) := by
        unfold createNotePost
        rw [hvc]
      rw [hred]
      exact hfr
    | ok cid =>
      cases hvr : validate_reminder_date today pc.reminder_date with
      | error e2 =>
        have hred : createNotePost db user today pc s = (db1, .invalid) := by
          unfold createNotePost
          rw [hvc, hvr]
        rw [hred]
        exact hfr
      | ok rd =>
        unfold createNotePost at hinv
        rw [hvc, hvr] at hinv
        simp at hinv
  · intro hinv
    cases hg : getNote db user noteId with
    | none =>
      have hred : notePut db user noteId today pu s = (db, .notFound) := by
        unfold notePut
        rw [hg]
      rw [hred] at hinv
      simp at hinv
    | some note =>
      have hfr := validate_category_opt_frame db user pu.category
      rcases hvc : validate_category_opt db user pu.category with ⟨db1, catRes⟩
      rw [hvc] at hfr
      cases catRes with
      | error e =>
        rw [notePut_invalid_cat db user noteId today pu s note db1 e hg hvc]
        exact hfr
      | ok cid =>
        cases hvr : validate_reminder_opt today pu.reminder_date with
        | error e2 =>
          rw [notePut_invalid_rem db user noteId today pu s note db1 cid e2 hg hvc hvr]
          exact hfr
        | ok rd =>
          rw [notePut_some db user noteId today pu s note db1 cid rd hg hvc hvr] at hinv
          simp at hinv

/-- The create payload of the failed-validation scenario: a fresh
well-formed category and a reminder date one day in the past. -/
def c9Payload : CreatePayload :=
  { title := "t", category := .obj [("name", "work")], tags := []
    content := "c", reminder_date := some 99, is_favorite := false }

/-- An update payload carrying no field at all. -/
def emptyUpdate : UpdatePayload :=
  { title := none, category := none, tags := none, content := none
    summary := none, reminder_date := none, is_favorite := none }

/-- Witness for the validation-failure frame at a concrete failing
create. -/
theorem validation_failure_frame_witness :
    (createNotePost emptyDB 7 100 c9Payload .missingKey).1.notes = emptyDB.notes ∧
    (createNotePost emptyDB 7 100 c9Payload .missingKey).1.versions = emptyDB.versions ∧
    ((createNotePost emptyDB 7 100 c9Payload .missingKey).1.categories = emptyDB.categories ∨
      ∃ cat, (createNotePost emptyDB 7 100 c9Payload .missingKey).1.categories
        = emptyDB.categories ++ [cat]) :=
  (validation_failure_frame emptyDB 7 1 100 c9Payload emptyUpdate .missingKey).1 rfl

/-- An update payload carrying only a title. -/
def titleOnlyUpdate : UpdatePayload :=
  { title := some "renamed", category := none, tags := none, content := none
    summary := none, reminder_date := none, is_favorite := none }

/-- Witness for the summary-recompute policy: a title-only update of the
note of `restoreDB` is independent of the summarizer and keeps the stored
summary. -/
theorem update_summary_recompute_policy_witness :
    notePut restoreDB 7 1 0 titleOnlyUpdate .missingKey
      = notePut restoreDB 7 1 0 titleOnlyUpdate (.ok "fresh") ∧
    ∀ n, (notePut restoreDB 7 1 0 titleOnlyUpdate .missingKey).2 = .ok n →
      n.summary = restoreNote.summary := by
  have h := (update_summary_recompute_policy restoreDB 7 1 0 titleOnlyUpdate
    .missingKey (.ok "fresh") restoreNote rfl).2 (Or.inl rfl)
  exact ⟨h.1, h.2 rfl⟩

/-- C10 (amended): the version-history read has no side effect on the
store and, when the note resolves, returns at most 20 version rows of
that note, sorted newest first by `created_at`; every version left out is
no newer than any returned one.  The order among rows sharing a
`created_at` is the underlying row order — the query specifies no
tie-break.  When the note does not resolve it returns 404. -/
theorem version_history_spec (db : DB) (user noteId : Nat) :
    (∀ note, getNote db user noteId = some note →
      ∃ r, versionHistoryGet db user noteId = (db, .ok r) ∧
        r.length ≤ 20 ∧
        List.Pairwise (fun a b => b.created_at ≤ a.created_at) r ∧
        (∀ v ∈ r, v ∈ db.versions ∧ v.note = noteId) ∧
        (∀ v ∈ db.versions, v.note = noteId → v ∉ r →
          ∀ w ∈ r, v.created_at ≤ w.created_at)) ∧
    (getNote db user noteId = none →
      versionHistoryGet db user noteId = (db, .notFound)) := by
  constructor
  · intro note h
    have hid := (getNote_mem db user noteId note h).2.1
    refine ⟨(List.insertionSort versionOrder
        (db.versions.filter (fun v => v.note == note.id))).take 20, ?_, ?_, ?_, ?_, ?_⟩
    · unfold versionHistoryGet
      rw [h]
    · exact List.length_take_le 20 _
    · exact List.Pairwise.sublist (List.take_sublist 20 _)
        (List.sorted_insertionSort versionOrder
          (db.versions.filter (fun v => v.note == note.id)))
    · intro v hv
      have hv2 : v ∈ List.insertionSort versionOrder
          (db.versions.filter (fun v => v.note == note.id)) :=
        (List.take_sublist 20 _).mem hv
      have hv3 := (List.perm_insertionSort versionOrder _).mem_iff.mp hv2
      have hv4 := List.mem_filter.mp hv3
      refine ⟨hv4.1, ?_⟩
      have := hv4.2
      simp only [beq_iff_eq] at this
      rw [this, hid]
    · intro v hv hvnote hvout w hw
      have hsorted := List.sorted_insertionSort versionOrder
        (db.versions.filter (fun v => v.note == note.id))
      have hvmem : v ∈ List.insertionSort versionOrder
          (db.versions.filter (fun v => v.note == note.id)) := by
        rw [(List.perm_insertionSort versionOrder _).mem_iff]
        refine List.mem_filter.mpr ⟨hv, ?_⟩
        simp [hvnote, hid]
      have hsplit := List.take_append_drop 20 (List.insertionSort versionOrder
        (db.versions.filter (fun v => v.note == note.id)))
      have hvdrop : v ∈ List.drop 20 (List.insertionSort versionOrder
          (db.versions.filter (fun v => v.note == note.id))) := by
        rcases List.mem_append.mp (by rw [hsplit]; exact hvmem) with hcase | hcase
        · exact absurd hcase hvout
        · exact hcase
      have hpair : List.Pairwise versionOrder
          (List.take 20 (List.insertionSort versionOrder
            (db.versions.filter (fun v => v.note == note.id))) ++
           List.drop 20 (List.insertionSort versionOrder
            (db.versions.filter (fun v => v.note == note.id)))) := by
        rw [hsplit]
        exact hsorted
      exact (List.pairwise_append.mp hpair).2.2 w hw v hvdrop
  · intro h
    unfold versionHistoryGet
    rw [h]

/-- Witness for the version-history theorem on the concrete store with a
`created_at` tie. -/
theorem version_history_spec_witness :
    ∃ r, versionHistoryGet tieDB 7 1 = (tieDB, .ok r) ∧
      r.length ≤ 20 ∧
      List.Pairwise (fun a b => b.created_at ≤ a.created_at) r ∧
      (∀ v ∈ r, v ∈ tieDB.versions ∧ v.note = 1) ∧
      (∀ v ∈ tieDB.versions, v.note = 1 → v ∉ r →
        ∀ w ∈ r, v.created_at ≤ w.created_at) :=
  (version_history_spec tieDB 7 1).1
    { id := 1, title := "t", category := none, tags := []
      content := "c", summary := "", reminder_date := none
      created_at := 0, updated_at := 0, owner := 7, is_favorite := false } rfl

/-- Version numbers stored for one note, in underlying row order. -/
def numsOf (vs : List NoteVersion) (noteId : Nat) : List Nat :=
  (vs.filter (fun v => v.note == noteId)).map (fun v => v.version_number)

/-- Version numbers of one note, as stored. -/
def versionNumbersOf (db : DB) (noteId : Nat) : List Nat :=
  numsOf db.versions noteId

/-- Number of stored versions of one note (`note.versions.count()`). -/
def versionCount (db : DB) (noteId : Nat) : Nat :=
  (db.versions.filter (fun v => v.note == noteId)).length

/-- Every note owns version numbers `1, 2, ..., k` in row order. -/
def VersionsOk (vs : List NoteVersion) : Prop :=
  ∀ noteId, numsOf vs noteId = List.range' 1 (numsOf vs noteId).length

/-- Appending a version numbered `count + 1` preserves the numbering
invariant. -/
theorem versionsOk_append (vs : List NoteVersion) (h : VersionsOk vs) (v : NoteVersion)
    (hv : v.version_number = (vs.filter (fun w => w.note == v.note)).length + 1) :
    VersionsOk (vs ++ [v]) := by
  intro nid
  by_cases hn : v.note = nid
  · have hsplit : numsOf (vs ++ [v]) nid = numsOf vs nid ++ [v.version_number] := by
      unfold numsOf
      rw [List.filter_append, List.map_append]
      congr 1
      simp [List.filter, hn]
    have hnum : v.version_number = (numsOf vs nid).length + 1 := by
      rw [hv, hn]
      unfold numsOf
      rw [List.length_map]
    rw [hsplit, hnum, h nid]
    have hconc : List.range' 1 ((numsOf vs nid).length + 1) =
        List.range' 1 (numsOf vs nid).length ++ [1 + 1 * (numsOf vs nid).length] :=
      List.range'_concat 1 (numsOf vs nid).length
    simp only [Nat.one_mul] at hconc
    rw [List.length_range']
    simp only [List.length_append, List.length_range', List.length_cons,
      List.length_nil]
    rw [hconc]
    congr 2
    omega
  · have hsame : numsOf (vs ++ [v]) nid = numsOf vs nid := by
      unfold numsOf
      rw [List.filter_append]
      have : List.filter (fun w => w.note == nid) [v] = [] := by
        have hb : (v.note == nid) = false := by simp [hn]
        simp [List.filter, hb]
      rw [this, List.append_nil]
    rw [hsame]
    exact h nid

/-- Cascading deletion of one note keeps the numbering invariant for every
note. -/
theorem versionsOk_erase (vs : List NoteVersion) (h : VersionsOk vs) (k : Nat) :
    VersionsOk (vs.filter (fun v => v.note != k)) := by
  intro nid
  by_cases hn : nid = k
  · subst hn
    have : numsOf (vs.filter (fun v => v.note != nid)) nid = [] := by
      unfold numsOf
      rw [List.filter_filter]
      have hz : vs.filter (fun v => (v.note == nid) && (v.note != nid)) = [] := by
        rw [List.filter_eq_nil_iff]
        intro v hv
        by_cases hvn : v.note = nid <;> simp [hvn]
      rw [hz]
      rfl
    rw [this]
    rfl
  · have : numsOf (vs.filter (fun v => v.note != k)) nid = numsOf vs nid := by
      unfold numsOf
      rw [List.filter_filter]
      congr 1
      apply List.filter_congr
      intro v hv
      by_cases hvn : v.note = nid
      · simp [hvn, hn]
      · simp [hvn]
    rw [this]
    exact h nid

/-- A create never touches the version table. -/
theorem createNotePost_versions (db : DB) (u : Nat) (t : Int) (p : CreatePayload)
    (s : SummarizerOutcome) : (createNotePost db u t p s).1.versions = db.versions := by
  have hfr := validate_category_frame db u p.category
  rcases hvc : validate_category db u p.category with ⟨db1, catRes⟩
  rw [hvc] at hfr
  cases catRes with
  | error e =>
    unfold createNotePost
    rw [hvc]
    exact hfr.2.1
  | ok cid =>
    cases hvr : validate_reminder_date t p.reminder_date with
    | error e2 =>
      unfold createNotePost
      rw [hvc, hvr]
      exact hfr.2.1
    | ok rd =>
      unfold createNotePost
      rw [hvc, hvr]
      exact hfr.2.1

/-- An update never touches the version table. -/
theorem notePut_versions (db : DB) (u nid : Nat) (t : Int) (pu : UpdatePayload)
    (s : SummarizerOutcome) : (notePut db u nid t pu s).1.versions = db.versions := by
  cases hg : getNote db u nid with
  | none =>
    unfold notePut
    rw [hg]
  | some note =>
    have hfr := validate_category_opt_frame db u pu.category
    rcases hvc : validate_category_opt db u pu.category with ⟨db1, catRes⟩
    rw [hvc] at hfr
    cases catRes with
    | error e =>
      rw [notePut_invalid_cat db u nid t pu s note db1 e hg hvc]
      exact hfr.2.1
    | ok cid =>
      cases hvr : validate_reminder_opt t pu.reminder_date with
      | error e2 =>
        rw [notePut_invalid_rem db u nid t pu s note db1 cid e2 hg hvc hvr]
        exact hfr.2.1
      | ok rd =>
        rw [notePut_some db u nid t pu s note db1 cid rd hg hvc hvr]
        exact hfr.2.1

/-- The version-history read does not change the store at all. -/
theorem versionHistoryGet_db (db : DB) (u nid : Nat) :
    (versionHistoryGet db u nid).1 = db := by
  unfold versionHistoryGet
  cases hg : getNote db u nid with
  | none => rfl
  | some note => rfl

/-- One request preserves the version-numbering invariant. -/
theorem step_versionsOk (db : DB) (op : Op) (h : VersionsOk db.versions) :
    VersionsOk (step db op).versions := by
  cases op with
  | create u t p s =>
    show VersionsOk (createNotePost db u t p s).1.versions
    rw [createNotePost_versions db u t p s]
    exact h
  | update u nid t p s =>
    show VersionsOk (notePut db u nid t p s).1.versions
    rw [notePut_versions db u nid t p s]
    exact h
  | history u nid =>
    show VersionsOk (versionHistoryGet db u nid).1.versions
    rw [versionHistoryGet_db db u nid]
    exact h
  | draft u nid data =>
    show VersionsOk (draftPost db u nid data).1.versions
    unfold draftPost
    by_cases hz : nid = 0
    · rw [if_pos hz]
      exact h
    · rw [if_neg hz]
      cases hg : getNote db u nid with
      | none => exact h
      | some note => exact versionsOk_append db.versions h _ rfl
  | restore u nid vid =>
    show VersionsOk (versionHistoryPost db u nid vid).1.versions
    unfold versionHistoryPost
    cases hg : getNote db u nid with
    | none =>
      cases hf : db.versions.find? (fun v => v.id == vid && v.note == nid) with
      | none => exact h
      | some version => exact h
    | some note =>
      cases hf : db.versions.find? (fun v => v.id == vid && v.note == nid) with
      | none => exact h
      | some version => exact versionsOk_append db.versions h _ rfl
  | delete u nid =>
    show VersionsOk (noteDelete db u nid).1.versions
    unfold noteDelete
    cases hg : getNote db u nid with
    | none => exact h
    | some note => exact versionsOk_erase db.versions h note.id

/-- Running any request sequence preserves the numbering invariant. -/
theorem runOps_versionsOk : ∀ (ops : List Op) (db : DB),
    VersionsOk db.versions → VersionsOk (runOps db ops).versions
  | [], _, h => h
  | op :: ops, db, h =>
    runOps_versionsOk ops (step db op) (step_versionsOk db op h)

/-- Per-note duplicate-free version numbers give duplicate-free
`(note, version_number)` keys over the whole table. -/
theorem nodup_keys_of_nums_nodup : ∀ (vs : List NoteVersion),
    (∀ nid, (numsOf vs nid).Nodup) →
    (vs.map (fun v => (v.note, v.version_number))).Nodup := by
  intro vs
  induction vs with
  | nil => intro h; simp
  | cons v l ih =>
    intro h
    have htail : ∀ nid, (numsOf l nid).Nodup := by
      intro nid
      have hh := h nid
      unfold numsOf at hh ⊢
      rw [List.filter_cons] at hh
      by_cases hv : (v.note == nid) = true
      · rw [if_pos hv] at hh
        simp only [List.map_cons] at hh
        exact (List.nodup_cons.mp hh).2
      · rw [if_neg hv] at hh
        exact hh
    refine List.nodup_cons.mpr ⟨?_, ih htail⟩
    intro hmem
    rcases List.mem_map.mp hmem with ⟨w, hw, heq⟩
    have hkey := Prod.mk.injEq .. |>.mp heq
    have hself := h v.note
    unfold numsOf at hself
    rw [List.filter_cons, if_pos (by simp)] at hself
    simp only [List.map_cons] at hself
    have hnotin := (List.nodup_cons.mp hself).1
    refine hnotin ?_
    rw [← hkey.2]
    refine List.mem_map.mpr ⟨w, ?_, rfl⟩
    exact List.mem_filter.mpr ⟨hw, by simp [hkey.1]⟩

/-- C8: over every request sequence from the empty store, the
`(note, version_number)` pairs of the stored versions stay pairwise
distinct, and each note owns version numbers that, in creation order, are
strictly increasing and start at 1. -/
theorem version_numbers_invariant (ops : List Op) :
    ((runOps emptyDB ops).versions.map (fun v => (v.note, v.version_number))).Nodup ∧
    ∀ noteId,
      List.Sorted (· < ·) (versionNumbersOf (runOps emptyDB ops) noteId) ∧
      (versionNumbersOf (runOps emptyDB ops) noteId = [] ∨
        (versionNumbersOf (runOps emptyDB ops) noteId).head? = some 1) := by
  have hok : VersionsOk (runOps emptyDB ops).versions :=
    runOps_versionsOk ops emptyDB (fun _ => rfl)
  constructor
  · refine nodup_keys_of_nums_nodup _ (fun nid => ?_)
    rw [hok nid]
    exact List.nodup_range' 1 _
  · intro noteId
    constructor
    · show List.Sorted (· < ·) (numsOf (runOps emptyDB ops).versions noteId)
      rw [hok noteId]
      exact List.pairwise_lt_range' 1 _
    · show numsOf (runOps emptyDB ops).versions noteId = [] ∨
        (numsOf (runOps emptyDB ops).versions noteId).head? = some 1
      cases hlen : (numsOf (runOps emptyDB ops).versions noteId).length with
      | zero =>
        left
        rw [hok noteId, hlen]
        rfl
      | succ k =>
        right
        rw [hok noteId, hlen, List.range'_succ]
        rfl

/-- Whether a request appends a version row for `noteId`: exactly the
draft saves and restores whose lookups succeed.  Creates and updates
never do. -/
def addsVersion (db : DB) (noteId : Nat) : Op → Bool
  | .draft u nid _ =>
      nid == noteId && !(nid == 0) && (getNote db u nid).isSome
  | .restore u nid vid =>
      nid == noteId && (getNote db u nid).isSome &&
        (db.versions.find? (fun v => v.id == vid && v.note == nid)).isSome
  | _ => false

/-- Number of successful version-appending requests for `noteId` along a
request sequence. -/
def versionEvents (db : DB) (noteId : Nat) : List Op → Nat
  | [] => 0
  | op :: ops =>
      (if addsVersion db noteId op then 1 else 0) + versionEvents (step db op) noteId ops

/-- Appending one row changes the count of exactly its note. -/
theorem versionCount_append (vs : List NoteVersion) (v : NoteVersion) (noteId : Nat) :
    ((vs ++ [v]).filter (fun w => w.note == noteId)).length =
      (vs.filter (fun w => w.note == noteId)).length +
        (if v.note = noteId then 1 else 0) := by
  rw [List.filter_append]
  by_cases hn : v.note = noteId
  · have hb : (v.note == noteId) = true := by simp [hn]
    simp [List.filter, hb, hn]
  · have hb : (v.note == noteId) = false := by simp [hn]
    simp [List.filter, hb, hn]

/-- One request changes the version count of a note it does not delete by
exactly the `addsVersion` indicator. -/
theorem step_versionCount (db : DB) (noteId : Nat) (op : Op)
    (hnd : ∀ u, op ≠ Op.delete u noteId) :
    versionCount (step db op) noteId =
      versionCount db noteId + (if addsVersion db noteId op then 1 else 0) := by
  cases op with
  | create u t p s =>
    show versionCount (createNotePost db u t p s).1 noteId = _
    unfold versionCount
    rw [createNotePost_versions db u t p s]
    simp [addsVersion]
  | update u nid t p s =>
    show versionCount (notePut db u nid t p s).1 noteId = _
    unfold versionCount
    rw [notePut_versions db u nid t p s]
    simp [addsVersion]
  | history u nid =>
    show versionCount (versionHistoryGet db u nid).1 noteId = _
    rw [versionHistoryGet_db db u nid]
    simp [addsVersion]
  | draft u nid data =>
    show versionCount (draftPost db u nid data).1 noteId = _
    unfold draftPost
    by_cases hz : nid = 0
    · rw [if_pos hz]
      subst hz
      simp [addsVersion]
    · rw [if_neg hz]
      cases hg : getNote db u nid with
      | none => simp [addsVersion, hg]
      | some note =>
        have hid := (getNote_mem db u nid note hg).2.1
        unfold versionCount
        rw [versionCount_append]
        simp only [addsVersion, hg, Option.isSome_some, Bool.and_true]
        by_cases hn : nid = noteId
        · have hnid : note.id = noteId := by rw [hid, hn]
          have hz2 : ¬noteId = 0 := by rw [← hn]; exact hz
          simp [hnid, hn, hz2]
        · have : ¬note.id = noteId := by rw [hid]; exact hn
          simp [this, hn]
  | restore u nid vid =>
    show versionCount (versionHistoryPost db u nid vid).1 noteId = _
    unfold versionHistoryPost
    cases hg : getNote db u nid with
    | none =>
      cases hf : db.versions.find? (fun v => v.id == vid && v.note == nid) with
      | none => simp [addsVersion, hg, hf]
      | some version => simp [addsVersion, hg, hf]
    | some note =>
      cases hf : db.versions.find? (fun v => v.id == vid && v.note == nid) with
      | none => simp [addsVersion, hg, hf]
      | some version =>
        have hid := (getNote_mem db u nid note hg).2.1
        unfold versionCount
        rw [versionCount_append]
        simp only [addsVersion, hg, hf, Option.isSome_some, Bool.and_true]
        by_cases hn : nid = noteId
        · have : note.id = noteId := by rw [hid, hn]
          simp [this, hn]
        · have : ¬note.id = noteId := by rw [hid]; exact hn
          simp [this, hn]
  | delete u nid =>
    have hne : nid ≠ noteId := by
      intro he
      exact (hnd u) (by rw [he])
    show versionCount (noteDelete db u nid).1 noteId = _
    unfold noteDelete
    cases hg : getNote db u nid with
    | none => simp [addsVersion]
    | some note =>
      have hid := (getNote_mem db u nid note hg).2.1
      unfold versionCount
      simp only [addsVersion]
      rw [List.filter_filter]
      have hcongr : List.filter (fun v => (v.note == noteId) && (v.note != note.id)) db.versions
          = List.filter (fun v => v.note == noteId) db.versions := by
        apply List.filter_congr
        intro v hv
        by_cases hvn : v.note = noteId
        · have hne2 : noteId ≠ note.id := by rw [hid]; exact fun he => hne he.symm
          simp [hvn, hne2]
        · simp [hvn]
      rw [hcongr]
      simp

/-- C4 (amended): over any request sequence that does not delete the
note, the stored version count grows by exactly the number of successful
draft saves and restores addressed to it — creation adds no version row
and updates (content-changing or not) add none either. -/
theorem version_count_events : ∀ (ops : List Op) (db : DB) (noteId : Nat),
    (∀ u, Op.delete u noteId ∉ ops) →
    versionCount (runOps db ops) noteId =
      versionCount db noteId + versionEvents db noteId ops
  | [], db, noteId, _ => by
    simp [runOps, versionEvents]
  | op :: ops, db, noteId, h => by
    have hop : ∀ u, op ≠ Op.delete u noteId := by
      intro u he
      exact h u (by rw [← he]; exact List.mem_cons_self op ops)
    have htail : ∀ u, Op.delete u noteId ∉ ops := by
      intro u hmem
      exact h u (List.mem_cons_of_mem op hmem)
    have ih := version_count_events ops (step db op) noteId htail
    have hstep := step_versionCount db noteId op hop
    show versionCount (runOps (step db op) ops) noteId = _
    rw [ih, hstep]
    show _ = versionCount db noteId +
      ((if addsVersion db noteId op then 1 else 0) + versionEvents (step db op) noteId ops)
    omega

/-- Request sequence of the version-count witness: a create, one
content-changing update, then one draft save. -/
def c4OpsW : List Op :=
  c4Ops ++ [.draft 7 1
    { title := none, content := none, tags := none, summary := none
      category_id := none, reminder_date := none, is_favorite := none }]

/-- Witness for the version-count theorem on a concrete delete-free
sequence: one version row, from the single draft save. -/
theorem version_count_events_witness :
    versionCount (runOps emptyDB c4OpsW) 1 =
      versionCount emptyDB 1 + versionEvents emptyDB 1 c4OpsW ∧
    versionCount (runOps emptyDB c4OpsW) 1 = 1 := by
  constructor
  · refine version_count_events c4OpsW emptyDB 1 ?_
    intro u hmem
    simp [c4OpsW, c4Ops] at hmem
  · decide
